import Mathlib

/-!
Verification of the points/history reconciliation core of the greenscanner
front end (class EcoRecycleApp in the main script, plus its helper functions
parseDeltaFromDetalle and formatFecha).

The JavaScript source is shallowly embedded: JSON values delivered by the
backend become the inductive type JVal, the mutable fields of the
EcoRecycleApp object that the reconciliation logic touches become the
structure AppState, and each method becomes a state transformer that takes
the outcome of its network calls as an explicit argument (none modelling a
rejected fetch / json() failure / thrown TypeError, exactly where the
source would land in its catch block).
-/

namespace GreenScanner

/-- JSON values as produced by response.json(). Numbers are modelled as
integers: the backend points API only ever returns integral counts, and no
claim depends on fractional values. -/
inductive JVal where
  | jnull
  | jbool (b : Bool)
  | jnum (n : Int)
  | jstr (s : String)
  | jarr (elems : List JVal)
  | jobj (fields : List (String × JVal))

/-- JavaScript truthiness of a JSON value (undefined is handled separately
as Option.none by the callers). -/
def jvFalsy : JVal → Bool
  | .jnull => true
  | .jbool b => !b
  | .jnum n => n == 0
  | .jstr s => s == ""
  | .jarr _ => false
  | .jobj _ => false

/-- Field lookup in a parsed JSON object; JSON.parse keeps the last
occurrence of a duplicated key, so the last binding wins. -/
def jlookup (fields : List (String × JVal)) (k : String) : Option JVal :=
  match fields with
  | [] => none
  | (k2, v) :: rest =>
    match jlookup rest k with
    | some w => some w
    | none => if k2 = k then some v else none

/-- Property access v?.k as the source uses it: none models undefined.
Reading a named property off a primitive or an array yields undefined for
the property names this code reads. -/
def jsGetField : JVal → String → Option JVal
  | .jobj fields, k => jlookup fields k
  | _, _ => none

/-- Whitespace class of the JavaScript regexes and of Number() trimming,
restricted to the ASCII range (the API strings are Latin text; the exotic
Unicode space code points are never produced by this backend). -/
def jsIsSpace (c : Char) : Bool :=
  c = ' ' || c = '\t' || c = '\n' || c = '\r' || c.toNat = 11 || c.toNat = 12

/-- Value of a nonempty digit string, most significant digit first. -/
def digitsToNat (l : List Char) : Nat :=
  l.foldl (fun a c => a * 10 + (c.toNat - 48)) 0

/-- Decimal integer literal, with optional leading minus sign. -/
def intLit : List Char → Option Int
  | [] => none
  | '-' :: rest =>
    if !rest.isEmpty && rest.all (fun c => c.isDigit) then
      some (-(digitsToNat rest : Int))
    else none
  | l => if l.all (fun c => c.isDigit) then some (digitsToNat l) else none

/-- Models the JavaScript Number(string) coercion on the integer fragment:
surrounding whitespace is trimmed, the empty string is 0, an optionally
signed run of decimal digits is its value, and anything else is NaN
(modelled as none). Fractional, hexadecimal and exponent literals are never
produced by this backend and are not modelled. -/
def strToNumber (s : String) : Option Int :=
  match ((s.data.dropWhile jsIsSpace).reverse.dropWhile jsIsSpace).reverse with
  | [] => some 0
  | '+' :: rest =>
    if !rest.isEmpty && rest.all (fun c => c.isDigit) then
      some (digitsToNat rest)
    else none
  | l => intLit l

/-- Models the JavaScript Number() coercion on JSON values: null is 0,
booleans are 0/1, strings go through the string parse, the empty array is 0
and plain objects are NaN (modelled as none). Nonempty arrays coerce in JS
through their joined string form, which no API payload and no claim
exercises; they are modelled as NaN. -/
def jsToNumber : JVal → Option Int
  | .jnull => some 0
  | .jbool b => some (if b then 1 else 0)
  | .jnum n => some n
  | .jstr s => strToNumber s
  | .jarr [] => some 0
  | .jarr (_ :: _) => none
  | .jobj _ => none

/-- Models Number(resp?.k ?? 0): a missing field (undefined) and a null
field both fall back to 0 through the nullish coalescing; every other value
goes through the Number() coercion. -/
def jsNumField (v : JVal) (k : String) : Option Int :=
  match jsGetField v k with
  | none => some 0
  | some .jnull => some 0
  | some w => jsToNumber w

/-- Case folding as the /i regex flag applies it to the pattern letters this
source uses: ASCII letters fold to lower case, and the accented o of gastó
folds to its lower-case form. -/
def lowerJS (c : Char) : Char :=
  if c = 'Ó' then 'ó' else c.toLower

/-- Case-insensitive character match (input character against a pattern
character). -/
def ciEq (a b : Char) : Bool :=
  lowerJS a = lowerJS b

/-- Greedy \d+ : the leading run of digits and the remainder. -/
def takeDigits : List Char → List Char × List Char
  | [] => ([], [])
  | c :: rest =>
    if c.isDigit then
      let p := takeDigits rest
      (c :: p.1, p.2)
    else ([], c :: rest)

/-- Match a literal pattern case-insensitively at the head of the input,
returning the remainder on success. -/
def litCI : List Char → List Char → Option (List Char)
  | [], s => some s
  | _ :: _, [] => none
  | p :: ps, c :: cs => if ciEq c p then litCI ps cs else none

/-- One anchored attempt of the regex /\+(\d+)\s*puntos?/i : a literal plus
sign, the captured digit run, optional whitespace, then the word punto
(the trailing s of the pattern is optional, so only punto is required).
Greedy matching needs no backtracking here because a digit can neither
start the whitespace run nor the literal p, so maximal runs are exact. -/
def escMatchAt : List Char → Option Nat
  | '+' :: rest =>
    let d := takeDigits rest
    if d.1.isEmpty then none
    else
      match litCI [ 'p', 'u', 'n', 't', 'o' ] (d.2.dropWhile jsIsSpace) with
      | some _ => some (digitsToNat d.1)
      | none => none
  | _ => none

/-- Leftmost match of /\+(\d+)\s*puntos?/i over the whole input, as
String.prototype.match produces it: the first position at which the
anchored attempt succeeds. -/
def escFind : List Char → Option Nat
  | [] => none
  | c :: rest =>
    match escMatchAt (c :: rest) with
    | some n => some n
    | none => escFind rest

/-- One anchored attempt of the regex /gast[oó]\s+(\d+)\s*pts/i : the
literal gast, one of o or ó, at least one whitespace character, the
captured digit run, optional whitespace, then the literal pts, all
case-insensitively. -/
def canjeMatchAt (l : List Char) : Option Nat :=
  match litCI [ 'g', 'a', 's', 't' ] l with
  | none => none
  | some r1 =>
    match r1 with
    | [] => none
    | c :: r2 =>
      if ciEq c 'o' || ciEq c 'ó' then
        match r2 with
        | [] => none
        | c2 :: r3 =>
          if jsIsSpace c2 then
            let d := takeDigits (r3.dropWhile jsIsSpace)
            if d.1.isEmpty then none
            else
              match litCI [ 'p', 't', 's' ] (d.2.dropWhile jsIsSpace) with
              | some _ => some (digitsToNat d.1)
              | none => none
          else none
      else none

/-- Leftmost match of /gast[oó]\s+(\d+)\s*pts/i over the whole input. -/
def canjeFind : List Char → Option Nat
  | [] => none
  | c :: rest =>
    match canjeMatchAt (c :: rest) with
    | some n => some n
    | none => canjeFind rest

/-- One anchored attempt of the fallback regex /([+-]?\d+)/ : an optional
sign followed by a digit run; parseInt of the capture. -/
def fallbackMatchAt : List Char → Option Int
  | [] => none
  | '+' :: rest =>
    let d := takeDigits rest
    if d.1.isEmpty then none else some (digitsToNat d.1)
  | '-' :: rest =>
    let d := takeDigits rest
    if d.1.isEmpty then none else some (-(digitsToNat d.1 : Int))
  | c :: rest =>
    if c.isDigit then some (digitsToNat (takeDigits (c :: rest)).1)
    else none

/-- Leftmost match of /([+-]?\d+)/ over the whole input. -/
def fallbackFind : List Char → Option Int
  | [] => none
  | c :: rest =>
    match fallbackMatchAt (c :: rest) with
    | some n => some n
    | none => fallbackFind rest

/-- The helper parseDeltaFromDetalle of the source, on string inputs: an
empty detalle is 0 (the !detalle guard); accion escaneo reads the first
+digits puntos pattern, accion canje negates the digits of the first
gasto digits pts pattern, and any other accion takes the first signed
integer literal; each falls back to 0 when its regex has no match. -/
def parseDeltaFromDetalle (accion detalle : String) : Int :=
  if detalle = "" then 0
  else if accion = "escaneo" then
    match escFind detalle.data with
    | some n => (n : Int)
    | none => 0
  else if accion = "canje" then
    match canjeFind detalle.data with
    | some n => -(n : Int)
    | none => 0
  else
    match fallbackFind detalle.data with
    | some n => n
    | none => 0

/-- Models the Date parser of the JavaScript runtime (new Date(string)):
a string of the shape D followed by a decimal integer denotes that epoch
timestamp; every other string — in particular the sentinel Ahora and the
free-text backend fields — is an Invalid Date, whose time value is NaN
(modelled as none). The source never inspects the parsed format itself, it
only pipes strings through parse, format and re-parse, so a single
injective, re-parseable format family captures the engine behavior; it is
the reading most favorable to the spec, since a locale whose
toLocaleString output the engine cannot re-parse turns every comparison
into the NaN case. -/
def jsDateValue (s : String) : Option Int :=
  match s.data with
  | 'D' :: rest => intLit rest
  | _ => none

/-- Models Date.prototype.toLocaleString of a valid date, in the same
re-parseable format family as jsDateValue (round trip exact). -/
def jsLocaleString (t : Int) : String :=
  "D" ++ toString t

/-- The helper formatFecha of the source: parse the incoming string as a
date, give the sentinel Ahora when it is invalid, and otherwise the
locale-formatted form. The try/catch of the source is vacuous (neither the
Date constructor nor toLocaleString throws). -/
def formatFecha (fechaISO : String) : String :=
  match jsDateValue fechaISO with
  | none => "Ahora"
  | some t => jsLocaleString t

/-- The fecha field of a derived history entry:
h.fecha ? formatFecha(h.fecha) : the literal Ahora. A falsy or missing
fecha short-circuits to Ahora; a string goes through formatFecha; a number
is a valid date outright (new Date(number)); true coerces to the timestamp
1; arrays and objects do not parse as dates for these payload shapes. -/
def deriveFecha (fecha : Option JVal) : String :=
  match fecha with
  | none => "Ahora"
  | some v =>
    if jvFalsy v then "Ahora"
    else
      match v with
      | .jstr s => formatFecha s
      | .jnum n => jsLocaleString n
      | .jbool _ => jsLocaleString 1
      | _ => "Ahora"

/-- A normalized history entry as loadHistoryFromBackend builds it. The
source also computes a local variable label from the same fields but does
not put it into the returned object; that dead local is omitted (it cannot
throw, so omitting it loses no failure behavior). -/
structure HistEntry where
  accion : Option JVal
  detalle : Option JVal
  badge : String
  delta : Int
  fecha : String

/-- The badge template of the source: delta >= 0 ? plus-prefixed : as-is. -/
def mkBadge (delta : Int) : String :=
  if 0 ≤ delta then "+" ++ toString delta else toString delta

/-- parseDeltaFromDetalle as loadHistoryFromBackend actually invokes it,
with the raw JSON field values (none = undefined). A falsy detalle returns
0 through the !detalle guard; a nonempty string flows into the regex
logic, where the strict comparisons of accion against the two literals
only ever succeed for string-valued accion; a truthy non-string detalle
makes detalle.match throw a TypeError (modelled as none), which the caller
catches. -/
def parseDeltaJV (accion detalle : Option JVal) : Option Int :=
  match detalle with
  | some (.jstr s) =>
    if s = "" then some 0
    else
      some (parseDeltaFromDetalle
        (match accion with
         | some (.jstr a) => a
         | _ => "") s)
  | some d => if jvFalsy d then some 0 else none
  | none => some 0

/-- The entry construction of the map body, once the three raw fields are
read: the parsed delta (propagating a thrown TypeError as none), its
badge, and the formatted fecha, next to the raw accion and detalle that
the source spreads into the returned object. -/
def deriveItemCore (accion detalle fecha : Option JVal) : Option HistEntry :=
  match parseDeltaJV accion detalle with
  | none => none
  | some delta =>
    some { accion := accion
           detalle := detalle
           badge := mkBadge delta
           delta := delta
           fecha := deriveFecha fecha }

/-- Normalization of one raw history item inside the map of
loadHistoryFromBackend. A null item makes the property access h.accion
throw (modelled as none); otherwise the three fields are read off the
item (undefined on non-objects) and the entry is built from them. -/
def deriveItem (h : JVal) : Option HistEntry :=
  match h with
  | .jnull => none
  | _ =>
    deriveItemCore (jsGetField h "accion") (jsGetField h "detalle")
      (jsGetField h "fecha")

/-- The map over the raw payload items, left to right; the first thrown
TypeError aborts the whole map (and hence the whole refresh). -/
def deriveItems : List JVal → Option (List HistEntry)
  | [] => some []
  | h :: rest =>
    match deriveItem h with
    | none => none
    | some e =>
      match deriveItems rest with
      | none => none
      | some es => some (e :: es)

/-- The expression (raw || []) followed by .map: a falsy payload maps as
the empty array, an array maps elementwise, and any other truthy value has
no .map method, so the call throws (modelled as none). -/
def rawItems (raw : JVal) : Option (List JVal) :=
  if jvFalsy raw then some []
  else
    match raw with
    | .jarr l => some l
    | _ => none

/-- The full normalization of one history payload: entry derivation over
the item list, none on any thrown error. -/
def histResult (raw : JVal) : Option (List HistEntry) :=
  match rawItems raw with
  | none => none
  | some items => deriveItems items

/-- The sort comparator (a, b) => new Date(b.fecha) - new Date(a.fecha),
composed with the SortCompare step of the ECMAScript specification, which
maps a NaN comparator result to +0. Whenever either side carries the
sentinel Ahora (or any string the engine cannot re-parse as a date), the
subtraction involves NaN and the pair compares as equal. -/
def histCmp (a b : HistEntry) : Int :=
  match jsDateValue b.fecha, jsDateValue a.fecha with
  | some x, some y => x - y
  | _, _ => 0

/-- Stable insertion of one element: the new element passes every element
it does not strictly precede under the comparator, so elements comparing
as equal keep their original relative order, as the stable
Array.prototype.sort of the engines guarantees. -/
def insertStable {α : Type} (cmp : α → α → Int) (a : α) : List α → List α
  | [] => [ a ]
  | b :: l => if cmp a b < 0 then a :: b :: l else b :: insertStable cmp a l

/-- Stable comparator sort modelling Array.prototype.sort: elements are
taken left to right and stably inserted, which for a consistent comparator
yields the unique stable sorted permutation that the ECMAScript
specification mandates. -/
def jsSortBy {α : Type} (cmp : α → α → Int) (l : List α) : List α :=
  l.foldl (fun acc a => insertStable cmp a acc) []

/-- A reward as loadRewards builds it from the /premios payload: the stock
is typeof-checked (a non-number becomes 0), while puntos_necesarios is
stored unvalidated (none = field absent). -/
structure Reward where
  id : Int
  name : String
  points : Option JVal
  stock : Int
  partner : String

/-- The mutable fields of the EcoRecycleApp object that the reconciliation
logic reads or writes. userPoints and userPointsTotal are Option Int with
none modelling NaN, which Number() can produce. -/
structure AppState where
  fetchingPoints : Bool
  lastPointsFetch : Nat
  userPoints : Option Int
  userPointsTotal : Option Int
  serverHistory : List HistEntry
  rewards : List Reward

/-- The constructor initialization of those fields. -/
def initState : AppState :=
  { fetchingPoints := false
    lastPointsFetch := 0
    userPoints := some 0
    userPointsTotal := some 0
    serverHistory := []
    rewards := [] }

/-- The synchronous prefix of fetchPoints, up to and including the two
gate writes: the in-flight check, the 8000 ms window check against
this._lastPointsFetch || 0, the stored-email check, and then the
flag-set-before-network-call writes. The returned Boolean tells whether
the pair of GET requests is dispatched. Timestamps are Nat epoch
milliseconds; the truncated subtraction agrees with the JavaScript signed
difference on the throttle test, since a negative difference is below the
window either way. -/
def fetchPointsGate (s : AppState) (now : Nat) (correo : Option String) :
    AppState × Bool :=
  if s.fetchingPoints then (s, false)
  else if now - s.lastPointsFetch < 8000 then (s, false)
  else
    match correo with
    | none => (s, false)
    | some _ => ({ s with fetchingPoints := true, lastPointsFetch := now }, true)

/-- The asynchronous tail of fetchPoints, from the two awaited responses to
the finally block: on success (both responses parsed) the two point fields
are overwritten through the Number coercions; on any failure of either
fetch or either json() the catch block logs and changes nothing; in both
cases the finally block clears the in-flight flag. The rendering calls
touch only the DOM and are out of scope. -/
def fetchPointsFinish (s : AppState) (resp : Option (JVal × JVal)) : AppState :=
  match resp with
  | none => { s with fetchingPoints := false }
  | some (saldo, total) =>
    { s with
      userPoints := jsNumField saldo "puntos"
      userPointsTotal := jsNumField total "puntos_acumulados"
      fetchingPoints := false }

/-- One whole sequential fetchPoints call: the gate, then, only when it
dispatched, the completion with the given response outcome. -/
def fetchPoints (s : AppState) (now : Nat) (correo : Option String)
    (resp : Option (JVal × JVal)) : AppState × Bool :=
  let g := fetchPointsGate s now correo
  if g.2 then (fetchPointsFinish g.1 resp, true) else (g.1, false)

/-- One whole loadHistoryFromBackend call: a missing stored email is a
silent no-op; a failed fetch or json() (resp = none) is caught and changes
nothing; a payload whose processing throws (histResult = none) is likewise
caught; on success this.serverHistory is replaced wholesale by the sorted
derived entries. -/
def loadHistoryFromBackend (s : AppState) (correo : Option String)
    (resp : Option JVal) : AppState :=
  match correo with
  | none => s
  | some _ =>
    match resp with
    | none => s
    | some raw =>
      match histResult raw with
      | none => s
      | some entries => { s with serverHistory := jsSortBy histCmp entries }

/-- The relational comparison this.userPoints < reward.points under the
JavaScript coercions: both sides go to numbers (undefined to NaN, null to
0), and any comparison involving NaN is false. -/
def jsLtNum (a : Option Int) (b : Option JVal) : Bool :=
  match a, (match b with | none => none | some v => jsToNumber v) with
  | some x, some y => decide (x < y)
  | _, _ => false

/-- The guard phase of claimReward, everything before the network POST:
the lookup by strict id equality, the stock check, the affordability
check, and the stored-email check. The returned Boolean tells whether the
POST to /puntos/canjear is issued; every false path returns with the state
untouched. -/
def claimReward (s : AppState) (rewardId : Int) (correo : Option String) :
    AppState × Bool :=
  match s.rewards.find? (fun r => r.id == rewardId) with
  | none => (s, false)
  | some reward =>
    if reward.stock ≤ 0 then (s, false)
    else if jsLtNum s.userPoints reward.points then (s, false)
    else
      match correo with
      | none => (s, false)
      | some _ => (s, true)

/-- Interleaving events for the throttle analysis: the synchronous prefix
of a fetchPoints call (which either no-ops or acquires the gate and
dispatches), and the completion of a dispatched call. Between two such
events the event loop runs other code, but nothing else writes the gate
fields. -/
inductive Ev where
  | callStart (now : Nat) (correo : Option String)
  | netDone (resp : Option (JVal × JVal))

/-- One event against the app state. -/
def stepEv (s : AppState) : Ev → AppState
  | .callStart now correo => (fetchPointsGate s now correo).1
  | .netDone resp => fetchPointsFinish s resp

/-- A sequence of events against the app state. -/
def runEv (s : AppState) : List Ev → AppState
  | [] => s
  | e :: evs => runEv (stepEv s e) evs

/-- The parsed timestamp of an entry, defaulting to 0; only meaningful on
entries satisfying entryDated. -/
def entryKey (e : HistEntry) : Int :=
  (jsDateValue e.fecha).getD 0

/-- An entry whose fecha string re-parses as a valid date. -/
def entryDated (e : HistEntry) : Prop :=
  (jsDateValue e.fecha).isSome = true

instance (e : HistEntry) : Decidable (entryDated e) := by
  unfold entryDated
  infer_instance

lemma fetchPointsFinish_flag (s : AppState) (resp : Option (JVal × JVal)) :
    (fetchPointsFinish s resp).fetchingPoints = false := by
  cases resp with
  | none => rfl
  | some p => obtain ⟨saldo, total⟩ := p; rfl

lemma fetchPointsGate_dispatch (s : AppState) (now : Nat) (c : Option String)
    (h : (fetchPointsGate s now c).2 = true) :
    s.lastPointsFetch + 8000 ≤ now ∧
      ((fetchPointsGate s now c).1).lastPointsFetch = now := by
  unfold fetchPointsGate at *
  by_cases hf : s.fetchingPoints
  · simp [hf] at h
  · by_cases hw : now - s.lastPointsFetch < 8000
    · simp [hf, hw] at h
    · cases c with
      | none => simp [hf, hw] at h
      | some u =>
        simp only [hf, hw, if_false, ite_false, Bool.false_eq_true]
        constructor
        · omega
        · simp [hw]

lemma lastPointsFetch_stepEv (s : AppState) (e : Ev) :
    s.lastPointsFetch ≤ (stepEv s e).lastPointsFetch := by
  cases e with
  | callStart now c =>
    unfold stepEv fetchPointsGate
    by_cases hf : s.fetchingPoints
    · simp [hf]
    · by_cases hw : now - s.lastPointsFetch < 8000
      · simp [hf, hw]
      · cases c with
        | none => simp [hf, hw]
        | some u => simp [hf, hw]; omega
  | netDone resp =>
    cases resp with
    | none => simp [stepEv, fetchPointsFinish]
    | some p => obtain ⟨saldo, total⟩ := p; simp [stepEv, fetchPointsFinish]

lemma lastPointsFetch_runEv (s : AppState) (evs : List Ev) :
    s.lastPointsFetch ≤ (runEv s evs).lastPointsFetch := by
  induction evs generalizing s with
  | nil => simp [runEv]
  | cons e evs ih =>
    have h1 := lastPointsFetch_stepEv s e
    have h2 := ih (stepEv s e)
    simp only [runEv]
    omega

lemma insertStable_perm {α : Type} (cmp : α → α → Int) (a : α) (l : List α) :
    (insertStable cmp a l).Perm (a :: l) := by
  induction l with
  | nil => simp [insertStable]
  | cons b l ih =>
    unfold insertStable
    by_cases h : cmp a b < 0
    · rw [if_pos h]
    · rw [if_neg h]
      exact (ih.cons b).trans (List.Perm.swap a b l)

lemma mem_insertStable {α : Type} {cmp : α → α → Int} {a x : α} {l : List α}
    (h : x ∈ insertStable cmp a l) : x = a ∨ x ∈ l := by
  have := (insertStable_perm cmp a l).mem_iff.mp h
  simpa using this

lemma foldl_insertStable_perm {α : Type} (cmp : α → α → Int) :
    ∀ (l acc : List α),
      (l.foldl (fun acc a => insertStable cmp a acc) acc).Perm (acc ++ l)
  | [], acc => by simp
  | a :: l, acc => by
    simp only [List.foldl_cons]
    refine (foldl_insertStable_perm cmp l (insertStable cmp a acc)).trans ?_
    refine ((insertStable_perm cmp a acc).append_right l).trans ?_
    simpa using List.perm_middle.symm

lemma jsSortBy_perm {α : Type} (cmp : α → α → Int) (l : List α) :
    (jsSortBy cmp l).Perm l := by
  simpa [jsSortBy] using foldl_insertStable_perm cmp l []

lemma histCmp_dated {a b : HistEntry} (ha : entryDated a) (hb : entryDated b) :
    histCmp a b = entryKey b - entryKey a := by
  unfold entryDated at ha hb
  obtain ⟨x, hx⟩ := Option.isSome_iff_exists.mp ha
  obtain ⟨y, hy⟩ := Option.isSome_iff_exists.mp hb
  simp [histCmp, entryKey, hx, hy]

lemma pairwise_insertStable (a : HistEntry) (ha : entryDated a)
    (l : List HistEntry) (hl : ∀ e ∈ l, entryDated e)
    (h : l.Pairwise (fun x y => entryKey y ≤ entryKey x)) :
    (insertStable histCmp a l).Pairwise (fun x y => entryKey y ≤ entryKey x) := by
  revert hl h
  induction l with
  | nil =>
    intro hl h
    simp [insertStable]
  | cons b l ih =>
    intro hl h
    have hb : entryDated b := hl b (by simp)
    have hl2 : ∀ e ∈ l, entryDated e := fun e he => hl e (by simp [he])
    have hpb := List.pairwise_cons.mp h
    unfold insertStable
    by_cases hc : histCmp a b < 0
    · rw [if_pos hc]
      rw [histCmp_dated ha hb] at hc
      refine List.pairwise_cons.mpr ⟨?_, h⟩
      intro y hy
      rcases List.mem_cons.mp hy with rfl | hyl
      · omega
      · have := hpb.1 y hyl
        omega
    · rw [if_neg hc]
      rw [histCmp_dated ha hb] at hc
      refine List.pairwise_cons.mpr ⟨?_, ih hl2 hpb.2⟩
      intro y hy
      rcases mem_insertStable hy with rfl | hyl
      · omega
      · exact hpb.1 y hyl

lemma pairwise_foldl_insertStable :
    ∀ (l acc : List HistEntry), (∀ e ∈ l, entryDated e) →
      (∀ e ∈ acc, entryDated e) →
      acc.Pairwise (fun x y => entryKey y ≤ entryKey x) →
      (l.foldl (fun acc a => insertStable histCmp a acc) acc).Pairwise
        (fun x y => entryKey y ≤ entryKey x)
  | [], acc, _, _, hp => by simpa
  | a :: l, acc, hl, hacc, hp => by
    simp only [List.foldl_cons]
    have ha : entryDated a := hl a (by simp)
    have hl2 : ∀ e ∈ l, entryDated e := fun e he => hl e (by simp [he])
    have hacc2 : ∀ e ∈ insertStable histCmp a acc, entryDated e := by
      intro e he
      rcases mem_insertStable he with rfl | hel
      · exact ha
      · exact hacc e hel
    exact pairwise_foldl_insertStable l (insertStable histCmp a acc) hl2 hacc2
      (pairwise_insertStable a ha acc hacc hp)

lemma jsSortBy_pairwise (l : List HistEntry) (hl : ∀ e ∈ l, entryDated e) :
    (jsSortBy histCmp l).Pairwise (fun x y => entryKey y ≤ entryKey x) := by
  simpa [jsSortBy] using
    pairwise_foldl_insertStable l [] hl (by simp) (by simp)

lemma deriveItemCore_badge (a d f : Option JVal) (e : HistEntry)
    (h : deriveItemCore a d f = some e) : e.badge = mkBadge e.delta := by
  unfold deriveItemCore at h
  rcases hpd : parseDeltaJV a d with _ | delta
  · rw [hpd] at h
    simp at h
  · rw [hpd] at h
    simp only [Option.some.injEq] at h
    subst h
    rfl

lemma deriveItem_badge (h : JVal) (e : HistEntry) (hde : deriveItem h = some e) :
    e.badge = mkBadge e.delta := by
  cases h with
  | jnull => exact Option.noConfusion hde
  | jbool b =>
    simp only [deriveItem] at hde
    exact deriveItemCore_badge _ _ _ _ hde
  | jnum n =>
    simp only [deriveItem] at hde
    exact deriveItemCore_badge _ _ _ _ hde
  | jstr s =>
    simp only [deriveItem] at hde
    exact deriveItemCore_badge _ _ _ _ hde
  | jarr l =>
    simp only [deriveItem] at hde
    exact deriveItemCore_badge _ _ _ _ hde
  | jobj fs =>
    simp only [deriveItem] at hde
    exact deriveItemCore_badge _ _ _ _ hde

/-- C1. Throttle exclusivity of fetchPoints: along any interleaving of
call prefixes and completions, two dispatching calls start at least
8000 ms apart (so two calls started less than 8000 ms apart dispatch the
GET pair at most once between them); moreover a call that finds the
in-flight flag set, or that starts within 8000 ms of the last started
fetch, returns as a no-op with the state untouched — the gate fields are
written before any network call is issued, which is what the first
conjunct rests on. -/
theorem claim_C1_throttle_exclusivity :
    (∀ (s : AppState) (evs : List Ev) (t1 t2 : Nat) (c1 c2 : Option String),
       (fetchPointsGate s t1 c1).2 = true →
       (fetchPointsGate (runEv (stepEv s (.callStart t1 c1)) evs) t2 c2).2 = true →
       t1 + 8000 ≤ t2)
    ∧ (∀ (s : AppState) (t : Nat) (c : Option String),
        s.fetchingPoints = true → fetchPointsGate s t c = (s, false))
    ∧ (∀ (s : AppState) (t : Nat) (c : Option String),
        t - s.lastPointsFetch < 8000 → fetchPointsGate s t c = (s, false)) := by
  refine ⟨?_, ?_, ?_⟩
  · intro s evs t1 t2 c1 c2 h1 h2
    have hd1 := fetchPointsGate_dispatch s t1 c1 h1
    have hs1 : (stepEv s (.callStart t1 c1)).lastPointsFetch = t1 := hd1.2
    have hmono := lastPointsFetch_runEv (stepEv s (.callStart t1 c1)) evs
    have hd2 := fetchPointsGate_dispatch _ t2 c2 h2
    have := hd2.1
    omega
  · intro s t c h
    simp [fetchPointsGate, h]
  · intro s t c h
    by_cases hf : s.fetchingPoints
    · simp [fetchPointsGate, hf]
    · simp [fetchPointsGate, hf, h]

/-- Witness for C1: from the initial state, a fetch dispatched at
t = 8000 forbids a second dispatch before t = 16000; a call against a held
gate, and a call 100 ms after construction, are both no-ops. -/
theorem claim_C1_witness :
    8000 + 8000 ≤ 16000
    ∧ fetchPointsGate { initState with fetchingPoints := true } 20000 (some "u")
        = ({ initState with fetchingPoints := true }, false)
    ∧ fetchPointsGate initState 100 (some "u") = (initState, false) :=
  ⟨claim_C1_throttle_exclusivity.1 initState [ .netDone none ] 8000 16000
      (some "u") (some "u") (by decide) (by decide),
   claim_C1_throttle_exclusivity.2.1 _ 20000 (some "u") (by decide),
   claim_C1_throttle_exclusivity.2.2 initState 100 (some "u") (by decide)⟩

/-- C2. Keep last known good on failure: when either of the two point
reads fails (the response argument none covers a rejected fetch and a
rejected json(), both of which precede any assignment in the source),
userPoints and userPointsTotal are left exactly as they were, over every
path through the call, and nothing is thrown (the call is a total state
transformer); likewise a failed loadHistoryFromBackend — network failure,
or a payload whose processing throws — leaves serverHistory untouched. -/
theorem claim_C2_keep_last_known_good :
    (∀ (s : AppState) (now : Nat) (c : Option String),
       ((fetchPoints s now c none).1).userPoints = s.userPoints
       ∧ ((fetchPoints s now c none).1).userPointsTotal = s.userPointsTotal)
    ∧ (∀ (s : AppState) (c : Option String),
        (loadHistoryFromBackend s c none).serverHistory = s.serverHistory)
    ∧ (∀ (s : AppState) (c : Option String) (raw : JVal),
        histResult raw = none →
        (loadHistoryFromBackend s c (some raw)).serverHistory = s.serverHistory) := by
  refine ⟨?_, ?_, ?_⟩
  · intro s now c
    unfold fetchPoints fetchPointsGate fetchPointsFinish
    by_cases hf : s.fetchingPoints <;>
      by_cases hw : now - s.lastPointsFetch < 8000 <;>
      cases c <;> simp [hf, hw]
  · intro s c
    cases c with
    | none => rfl
    | some u => rfl
  · intro s c raw h
    cases c with
    | none => rfl
    | some u => simp [loadHistoryFromBackend, h]

/-- Witness for C2: a history refresh whose payload is the number 5
(truthy but not an array, so the .map call throws) leaves the history of
the initial state unchanged. -/
theorem claim_C2_witness :
    (loadHistoryFromBackend initState (some "u") (some (.jnum 5))).serverHistory
      = initState.serverHistory :=
  claim_C2_keep_last_known_good.2.2 initState (some "u") (.jnum 5) rfl

/-- C8 as stated is false: an execution of fetchPoints that returns early
because another fetch is in flight terminates while _fetchingPoints is
still true (it is the other execution that will clear it). Concretely:
after a call at t = 9000 acquires the gate from the initial state, a call
at t = 9500 is a no-op (second component false) and at its termination the
flag still reads true. -/
theorem claim_C8_counterexample :
    (fetchPointsGate (stepEv initState (.callStart 9000 (some "u"))) 9500
        (some "u")).2 = false
    ∧ ((fetchPointsGate (stepEv initState (.callStart 9000 (some "u"))) 9500
        (some "u")).1).fetchingPoints = true := by
  decide

/-- C8 amended. The completion path always clears the gate: whatever the
response outcome (success or either read failing), the finally block
leaves _fetchingPoints false; consequently a whole call entered with the
gate free — the only way a call can itself acquire it — terminates with
the gate free, on every path (dispatch with success, dispatch with
failure, throttled-by-time no-op, unauthenticated no-op). Only an
execution that no-ops because another fetch is in flight ends with the
flag still true, held by that other execution. -/
theorem claim_C8_gate_release :
    (∀ (s : AppState) (resp : Option (JVal × JVal)),
       (fetchPointsFinish s resp).fetchingPoints = false)
    ∧ (∀ (s : AppState) (now : Nat) (c : Option String)
        (resp : Option (JVal × JVal)),
        s.fetchingPoints = false →
        ((fetchPoints s now c resp).1).fetchingPoints = false) := by
  constructor
  · exact fetchPointsFinish_flag
  · intro s now c resp hf
    unfold fetchPoints fetchPointsGate
    by_cases hw : now - s.lastPointsFetch < 8000
    · simp [hf, hw]
    · cases c with
      | none => simp [hf, hw]
      | some u => simp [hf, hw, fetchPointsFinish_flag]

/-- Witness for C8: a call from the initial state at t = 9000 whose two
reads fail still terminates with the gate free. -/
theorem claim_C8_witness :
    ((fetchPoints initState 9000 (some "u") none).1).fetchingPoints = false :=
  claim_C8_gate_release.2 initState 9000 (some "u") none rfl

/-- C10. Unauthenticated no-op frame: a call that passes the in-flight
check and the window check but finds no stored email returns before the
gate writes, so the state — in particular _fetchingPoints and
_lastPointsFetch — is exactly the one it started from, and any later call
behaves as if the unauthenticated call had never happened. -/
theorem claim_C10_unauth_frame :
    ∀ (s : AppState) (now : Nat),
      s.fetchingPoints = false → ¬ now - s.lastPointsFetch < 8000 →
      fetchPointsGate s now none = (s, false)
      ∧ ∀ (t : Nat) (c : Option String),
          fetchPointsGate ((fetchPointsGate s now none).1) t c
            = fetchPointsGate s t c := by
  intro s now hf hw
  have hg : fetchPointsGate s now none = (s, false) := by
    simp [fetchPointsGate, hf, hw]
  exact ⟨hg, fun t c => by rw [hg]⟩

/-- Witness for C10: an unauthenticated call at t = 9000 from the initial
state changes nothing, and an authenticated call at t = 9100 — within
8000 ms of it — still dispatches. -/
theorem claim_C10_witness :
    fetchPointsGate initState 9000 none = (initState, false)
    ∧ (fetchPointsGate ((fetchPointsGate initState 9000 none).1) 9100
        (some "u")).2 = true := by
  have h := claim_C10_unauth_frame initState 9000 rfl (by decide)
  exact ⟨h.1, by rw [h.2 9100 (some "u")]; decide⟩

/-- C3. Delta parsing: the four literal cases of the spec, four further
literal cases pinning case-insensitivity and the no-match fallbacks, and
the structural clauses — for accion escaneo the result is the leftmost
+digits-puntos match (0 when there is none or detalle is empty), for
canje the negated digits of the leftmost gasto-digits-pts match (0 when
none), and for every other accion the leftmost signed integer literal
(0 when none). -/
theorem claim_C3_delta_parsing :
    (parseDeltaFromDetalle "escaneo" "+5 puntos por reciclaje" = 5
     ∧ parseDeltaFromDetalle "canje" "Gastó 150 pts por: Entrada cine" = -150
     ∧ parseDeltaFromDetalle "otro" "ajuste -20" = -20
     ∧ parseDeltaFromDetalle "escaneo" "" = 0)
    ∧ (parseDeltaFromDetalle "escaneo" "5 puntos sin signo" = 0
       ∧ parseDeltaFromDetalle "escaneo" "+7 PUNTOS" = 7
       ∧ parseDeltaFromDetalle "canje" "GASTO 30 PTS" = -30
       ∧ parseDeltaFromDetalle "canje" "nada que ver 9" = 0)
    ∧ ((∀ s : String, parseDeltaFromDetalle "escaneo" s =
          if s = "" then 0
          else
            match escFind s.data with
            | some n => (n : Int)
            | none => 0)
       ∧ (∀ s : String, parseDeltaFromDetalle "canje" s =
          if s = "" then 0
          else
            match canjeFind s.data with
            | some n => -(n : Int)
            | none => 0)
       ∧ (∀ a s : String, a ≠ "escaneo" → a ≠ "canje" →
          parseDeltaFromDetalle a s =
          if s = "" then 0
          else
            match fallbackFind s.data with
            | some n => n
            | none => 0)) := by
  refine ⟨⟨by decide, by decide, by decide, by decide⟩,
          ⟨by decide, by decide, by decide, by decide⟩, ?_, ?_, ?_⟩
  · intro s
    by_cases h : s = "" <;> simp [parseDeltaFromDetalle, h]
  · intro s
    by_cases h : s = "" <;> simp [parseDeltaFromDetalle, h]
  · intro a s ha1 ha2
    by_cases h : s = "" <;> simp [parseDeltaFromDetalle, h, ha1, ha2]

/-- Witness for C3: the generic clause applied to an accion that is
neither escaneo nor canje. -/
theorem claim_C3_witness :
    parseDeltaFromDetalle "voz" "retiro 12 unidades" = 12 := by
  have h := claim_C3_delta_parsing.2.2.2.2 "voz" "retiro 12 unidades"
    (by decide) (by decide)
  rw [h]
  decide

/-- C4 as stated is false: the comparator re-parses the already formatted
fecha strings, and the sentinel Ahora is not a parseable date, so every
comparison against a sentinel entry is NaN, which the sort treats as
equality — sentinel entries keep their payload position instead of
sorting ahead. Concretely: a payload whose first item carries the past
date D100 and whose second item has no date at all ends, after a
successful refresh, with the dated entry first and the Ahora entry last,
the opposite of the claimed order. -/
theorem claim_C4_counterexample :
    ((loadHistoryFromBackend initState (some "u")
        (some (.jarr
          [ .jobj [("accion", .jstr "otro"), ("detalle", .jstr "ajuste -20"),
                   ("fecha", .jstr "D100")],
            .jobj [("accion", .jstr "escaneo"),
                   ("detalle", .jstr "+5 puntos")] ]))).serverHistory.map
       (fun e => e.fecha)) = ["D100", "Ahora"]
    ∧ jsDateValue "D100" = some 100
    ∧ jsDateValue "Ahora" = none := by
  decide

/-- C4 amended. After every successful loadHistoryFromBackend the history
is a permutation of the derived entries, and it is sorted by date
descending whenever every derived entry carries a re-parseable date;
entries with the sentinel Ahora (or any unparseable fecha) compare as
equal to everything (the comparator result is NaN, which the sort turns
into 0), so they retain their payload-relative position rather than
being ordered ahead of parsed past dates. -/
theorem claim_C4_history_ordering :
    ∀ (s : AppState) (u : String) (raw : JVal) (entries : List HistEntry),
      histResult raw = some entries →
      ((loadHistoryFromBackend s (some u) (some raw)).serverHistory).Perm entries
      ∧ ((∀ e ∈ entries, entryDated e) →
          ((loadHistoryFromBackend s (some u) (some raw)).serverHistory).Pairwise
            (fun a b => entryKey b ≤ entryKey a)) := by
  intro s u raw entries h
  have hres : (loadHistoryFromBackend s (some u) (some raw)).serverHistory
      = jsSortBy histCmp entries := by
    simp [loadHistoryFromBackend, h]
  constructor
  · rw [hres]
    exact jsSortBy_perm histCmp entries
  · intro hd
    rw [hres]
    exact jsSortBy_pairwise entries hd

/-- Witness for C4: a payload with two dated items arriving oldest first
comes back sorted newest first. -/
theorem claim_C4_witness :
    ((loadHistoryFromBackend initState (some "u")
        (some (.jarr
          [ .jobj [("accion", .jstr "escaneo"), ("detalle", .jstr "+5 puntos"),
                   ("fecha", .jstr "D100")],
            .jobj [("accion", .jstr "escaneo"), ("detalle", .jstr "+9 puntos"),
                   ("fecha", .jstr "D300")] ]))).serverHistory).Pairwise
      (fun a b => entryKey b ≤ entryKey a) := by
  have h := claim_C4_history_ordering initState "u"
    (.jarr
      [ .jobj [("accion", .jstr "escaneo"), ("detalle", .jstr "+5 puntos"),
               ("fecha", .jstr "D100")],
        .jobj [("accion", .jstr "escaneo"), ("detalle", .jstr "+9 puntos"),
               ("fecha", .jstr "D300")] ])
    [ { accion := some (.jstr "escaneo"), detalle := some (.jstr "+5 puntos"),
        badge := "+5", delta := 5, fecha := "D100" },
      { accion := some (.jstr "escaneo"), detalle := some (.jstr "+9 puntos"),
        badge := "+9", delta := 9, fecha := "D300" } ] rfl
  exact h.2 (by decide)

/-- C5. History replace-not-merge: after two sequential successful
refreshes with payloads P1 then P2, the history equals exactly the sorted
entries derived from P2, and every entry of it comes from P2 — nothing
derived from P1 survives on its own account. -/
theorem claim_C5_replace_not_merge :
    ∀ (s : AppState) (u : String) (raw1 raw2 : JVal)
      (es1 es2 : List HistEntry),
      histResult raw1 = some es1 →
      histResult raw2 = some es2 →
      (loadHistoryFromBackend (loadHistoryFromBackend s (some u) (some raw1))
          (some u) (some raw2)).serverHistory = jsSortBy histCmp es2
      ∧ ∀ e ∈ (loadHistoryFromBackend
            (loadHistoryFromBackend s (some u) (some raw1))
            (some u) (some raw2)).serverHistory, e ∈ es2 := by
  intro s u raw1 raw2 es1 es2 h1 h2
  have hres : (loadHistoryFromBackend (loadHistoryFromBackend s (some u)
      (some raw1)) (some u) (some raw2)).serverHistory = jsSortBy histCmp es2 := by
    simp [loadHistoryFromBackend, h1, h2]
  refine ⟨hres, ?_⟩
  rw [hres]
  intro e he
  exact (jsSortBy_perm histCmp es2).mem_iff.mp he

/-- Witness for C5: an earn-only first payload followed by a redeem-only
second payload leaves exactly the sorted entries of the second. -/
theorem claim_C5_witness :
    (loadHistoryFromBackend
        (loadHistoryFromBackend initState (some "u")
          (some (.jarr [ .jobj [("accion", .jstr "escaneo"),
                                ("detalle", .jstr "+5 puntos"),
                                ("fecha", .jstr "D100")] ])))
        (some "u")
        (some (.jarr [ .jobj [("accion", .jstr "canje"),
                              ("detalle", .jstr "Gastó 150 pts"),
                              ("fecha", .jstr "D200")] ]))).serverHistory
      = jsSortBy histCmp
          [ { accion := some (.jstr "canje"),
              detalle := some (.jstr "Gastó 150 pts"),
              badge := "-150", delta := -150, fecha := "D200" } ] :=
  (claim_C5_replace_not_merge initState "u"
    (.jarr [ .jobj [("accion", .jstr "escaneo"),
                    ("detalle", .jstr "+5 puntos"),
                    ("fecha", .jstr "D100")] ])
    (.jarr [ .jobj [("accion", .jstr "canje"),
                    ("detalle", .jstr "Gastó 150 pts"),
                    ("fecha", .jstr "D200")] ])
    [ { accion := some (.jstr "escaneo"), detalle := some (.jstr "+5 puntos"),
        badge := "+5", delta := 5, fecha := "D100" } ]
    [ { accion := some (.jstr "canje"), detalle := some (.jstr "Gastó 150 pts"),
        badge := "-150", delta := -150, fecha := "D200" } ] rfl rfl).1

/-- C6 as stated is false for non-numeric field values: Number() maps a
non-numeric string (or an object) to NaN, not to 0, and that NaN is what
gets stored. Concretely: a successful fetch whose saldo response carries
puntos = "abc" dispatches, completes, and leaves userPoints as NaN
(modelled none) rather than 0 — while the total response with its field
missing does coerce to 0. -/
theorem claim_C6_counterexample :
    ((fetchPoints initState 9000 (some "u")
        (some (.jobj [("puntos", .jstr "abc")], .jobj []))).1).userPoints ≠ some 0
    ∧ ((fetchPoints initState 9000 (some "u")
        (some (.jobj [("puntos", .jstr "abc")], .jobj []))).1).userPoints = none
    ∧ ((fetchPoints initState 9000 (some "u")
        (some (.jobj [("puntos", .jstr "abc")], .jobj []))).1).userPointsTotal
        = some 0
    ∧ (fetchPoints initState 9000 (some "u")
        (some (.jobj [("puntos", .jstr "abc")], .jobj []))).2 = true := by
  decide

/-- C6 amended. On a successful dispatch the two fields are overwritten by
the Number coercion of the respective response field: a missing field and
a null field coerce to 0 (through the nullish fallback), a numeric field
is stored as-is, and a non-numeric value becomes NaN rather than 0 — the
operation still succeeding either way. -/
theorem claim_C6_coercion :
    (∀ (s : AppState) (now : Nat) (c : Option String) (saldo total : JVal),
       (fetchPointsGate s now c).2 = true →
       ((fetchPoints s now c (some (saldo, total))).1).userPoints
           = jsNumField saldo "puntos"
       ∧ ((fetchPoints s now c (some (saldo, total))).1).userPointsTotal
           = jsNumField total "puntos_acumulados")
    ∧ (∀ (v : JVal) (k : String), jsGetField v k = none → jsNumField v k = some 0)
    ∧ (∀ (v : JVal) (k : String), jsGetField v k = some .jnull →
        jsNumField v k = some 0)
    ∧ (∀ (v : JVal) (k : String) (n : Int), jsGetField v k = some (.jnum n) →
        jsNumField v k = some n) := by
  refine ⟨?_, ?_, ?_, ?_⟩
  · intro s now c saldo total hg
    unfold fetchPoints
    simp [hg, fetchPointsFinish]
  · intro v k h
    simp [jsNumField, h]
  · intro v k h
    simp [jsNumField, h]
  · intro v k n h
    simp [jsNumField, h, jsToNumber]

/-- Witness for C6: a numeric saldo field is stored as-is and a null total
field coerces to 0. -/
theorem claim_C6_witness :
    ((fetchPoints initState 8000 (some "u")
        (some (.jobj [("puntos", .jnum 7)],
               .jobj [("puntos_acumulados", .jnull)]))).1).userPoints
      = jsNumField (.jobj [("puntos", .jnum 7)]) "puntos" :=
  (claim_C6_coercion.1 initState 8000 (some "u")
    (.jobj [("puntos", .jnum 7)]) (.jobj [("puntos_acumulados", .jnull)])
    (by decide)).1

/-- C7. Badge rendering: every entry a successful history derivation
produces carries the badge of its delta — a plus-prefixed decimal for
nonnegative deltas, the bare decimal (with its minus sign) for negative
ones. -/
theorem claim_C7_badge :
    (∀ (h : JVal) (e : HistEntry), deriveItem h = some e →
       e.badge = if 0 ≤ e.delta then "+" ++ toString e.delta
                 else toString e.delta)
    ∧ mkBadge 5 = "+5" ∧ mkBadge (-150) = "-150" ∧ mkBadge 0 = "+0" := by
  refine ⟨?_, by decide, by decide, by decide⟩
  intro h e hde
  exact (deriveItem_badge h e hde).trans rfl

/-- Witness for C7: the derived redeem entry for Gastó 150 pts carries the
badge -150. -/
theorem claim_C7_witness :
    ("-150" : String)
      = if (0 : Int) ≤ -150 then "+" ++ toString (-150 : Int)
        else toString (-150 : Int) :=
  claim_C7_badge.1
    (.jobj [("accion", .jstr "canje"), ("detalle", .jstr "Gastó 150 pts")])
    { accion := some (.jstr "canje"), detalle := some (.jstr "Gastó 150 pts"),
      badge := "-150", delta := -150, fecha := "Ahora" } rfl

/-- C9. Redemption guard: when the id matches no reward, or the matched
reward has stock at most 0, or userPoints is strictly below its cost
(under the JavaScript comparison the source performs), claimReward
returns before the POST — no request is issued and the state is exactly
the one it started from. -/
theorem claim_C9_redeem_guard :
    (∀ (s : AppState) (rid : Int) (c : Option String),
       s.rewards.find? (fun r => r.id == rid) = none →
       claimReward s rid c = (s, false))
    ∧ (∀ (s : AppState) (rid : Int) (c : Option String) (r : Reward),
        s.rewards.find? (fun r => r.id == rid) = some r → r.stock ≤ 0 →
        claimReward s rid c = (s, false))
    ∧ (∀ (s : AppState) (rid : Int) (c : Option String) (r : Reward),
        s.rewards.find? (fun r => r.id == rid) = some r →
        jsLtNum s.userPoints r.points = true →
        claimReward s rid c = (s, false)) := by
  refine ⟨?_, ?_, ?_⟩
  · intro s rid c h
    simp [claimReward, h]
  · intro s rid c r h hs
    simp [claimReward, h, hs]
  · intro s rid c r h hlt
    by_cases hs : r.stock ≤ 0
    · simp [claimReward, h, hs]
    · simp [claimReward, h, hs, hlt]

/-- Witness for C9: an out-of-stock reward is refused with the state
untouched, even though the balance would cover it. -/
theorem claim_C9_witness :
    claimReward
      { initState with
        rewards := [ { id := 1, name := "Premio", points := some (.jnum 100),
                       stock := 0, partner := "" } ]
        userPoints := some 500 } 1 (some "u")
      = ({ initState with
           rewards := [ { id := 1, name := "Premio", points := some (.jnum 100),
                          stock := 0, partner := "" } ]
           userPoints := some 500 }, false) :=
  claim_C9_redeem_guard.2.1 _ 1 (some "u")
    { id := 1, name := "Premio", points := some (.jnum 100),
      stock := 0, partner := "" } rfl (by decide)

end GreenScanner
